import Mathlib

/-!
Shallow embedding of the SDL timer subsystem (`src/src/core/windows/SDL_winver.h`,
which contains the timer implementation after the platform-version header):
the monotonic tick clock, the timer-resolution hint handler, the timer registry
(create/remove), the worker thread's sorted list and fire loop, and the precise
delay algorithm.  Machine `Uint64`/`Uint32` values are modelled as `Nat`; the
places where the source performs wrapping machine arithmetic (`--tick_start`
at zero, the `counter - tick_start` subtraction and the scaler multiplication
in the tick conversions, and the `(Uint32)` casts around millisecond
callbacks) carry an explicit `% 2^64` / `% 2^32` or the wrapped constant
`2^64 - 1`.
-/

/-- Nanoseconds per millisecond (`SDL_NS_PER_MS`). -/
def SDL_NS_PER_MS : Nat := 1000000

/-- Nanoseconds per second (`SDL_NS_PER_SECOND`). -/
def SDL_NS_PER_SECOND : Nat := 1000000000

/-- Milliseconds per second (`SDL_MS_PER_SECOND`). -/
def SDL_MS_PER_SECOND : Nat := 1000

/-- Conversion `SDL_MS_TO_NS`: milliseconds to nanoseconds. -/
def SDL_MS_TO_NS (ms : Nat) : Nat := ms * SDL_NS_PER_MS

/-- Conversion `SDL_NS_TO_MS`: nanoseconds to milliseconds (integer division). -/
def SDL_NS_TO_MS (ns : Nat) : Nat := ns / SDL_NS_PER_MS

/-- The largest `Uint64` value, `(Uint64)-1`. -/
def UINT64_MAX : Nat := 2 ^ 64 - 1

/-! ## Monotonic tick clock (`SDL_InitTicks`, `SDL_GetTicksNS`, `SDL_GetTicks`) -/

/-- The tick-clock globals set up by `SDL_InitTicks`: the counter origin and the
two gcd-reduced rational scalers. -/
structure TicksState where
  tick_start : Nat
  tick_numerator_ns : Nat
  tick_denominator_ns : Nat
  tick_numerator_ms : Nat
  tick_denominator_ms : Nat
deriving DecidableEq, Repr

/-- Embedding of `SDL_InitTicks`, parameterised by the sampled performance
frequency (`SDL_GetPerformanceFrequency()`) and counter
(`SDL_GetPerformanceCounter()`).  `SDL_CalculateGCD` is `Nat.gcd`.  The source
runs `--tick_start` when the counter reads zero; on `Uint64` that decrement
wraps to `2^64 - 1`, which the embedding writes out explicitly. -/
def SDL_InitTicks (tick_freq : Nat) (perf_counter : Nat) : TicksState :=
  let gcd_ns := Nat.gcd SDL_NS_PER_SECOND tick_freq
  let gcd_ms := Nat.gcd SDL_MS_PER_SECOND tick_freq
  { tick_start := if perf_counter = 0 then UINT64_MAX else perf_counter
    tick_numerator_ns := SDL_NS_PER_SECOND / gcd_ns
    tick_denominator_ns := tick_freq / gcd_ns
    tick_numerator_ms := SDL_MS_PER_SECOND / gcd_ms
    tick_denominator_ms := tick_freq / gcd_ms }

/-- Wrapping `Uint64` subtraction `a - b`, written additively on `Nat`. -/
def u64Sub (a b : Nat) : Nat := (a + (2 ^ 64 - b % 2 ^ 64)) % 2 ^ 64

/-- Embedding of `SDL_GetTicksNS`, parameterised by the current performance
counter sample: `starting_value = counter - tick_start` and
`value = starting_value * tick_numerator_ns` are `Uint64` operations and wrap
modulo `2^64`.  The wrap of the subtraction is load-bearing (after a zero
counter reading at init the origin is `2^64 - 1`); a wrap of the product is
what the source's assertion `value >= starting_value` guards against. -/
def SDL_GetTicksNS (st : TicksState) (perf_counter : Nat) : Nat :=
  u64Sub perf_counter st.tick_start * st.tick_numerator_ns % 2 ^ 64 /
    st.tick_denominator_ns

/-- Embedding of `SDL_GetTicks` (milliseconds), parameterised by the current
performance counter sample, with the same wrapping `Uint64` subtraction and
multiplication as `SDL_GetTicksNS`. -/
def SDL_GetTicks (st : TicksState) (perf_counter : Nat) : Nat :=
  u64Sub perf_counter st.tick_start * st.tick_numerator_ms % 2 ^ 64 /
    st.tick_denominator_ms

/-! ## Timer-resolution hint handler -/

/-- Digit-folding helper for `SDL_atoi`. -/
def atoiDigits : List Char → Nat → Nat
  | [], acc => acc
  | c :: cs, acc => if c.isDigit then atoiDigits cs (acc * 10 + (c.toNat - 48)) else acc

/-- Modelled from the spec: `SDL_atoi` (the C stdlib shim is not under `src/`);
the spec says the hint string is "parsed as a decimal integer".  An optional
sign followed by leading decimal digits. -/
def SDL_atoi (s : String) : Int :=
  match s.toList with
  | '-' :: cs => -(atoiDigits cs 0 : Int)
  | '+' :: cs => (atoiDigits cs 0 : Int)
  | cs => (atoiDigits cs 0 : Int)

/-- Embedding of `SDL_TimerResolutionChanged`.  The `hint` string is `none`
when the C pointer is NULL; `oldEqHint` models the pointer equality test
`oldValue != hint` (true when the two pointers are equal).  The result is the
`period` passed to `SDL_SetSystemTimerResolutionMS`, or `none` when that call
is skipped. -/
def SDL_TimerResolutionChanged (oldEqHint : Bool) (hint : Option String) : Option Int :=
  let period : Int :=
    match hint with
    | some s => if s.isEmpty then 1 else SDL_atoi s
    | none => 1
  if period ≠ 0 ∨ oldEqHint = false then some period else none

/-! ## Timer records and the worker's sorted list -/

/-- Timer callback, abstracting the C function pointer: arguments are
`(userdata, timerID, interval)`, the result is the next interval (in the
callback's own unit). -/
def TimerCB : Type := Nat → Nat → Nat → Nat

/-- Embedding of `struct SDL_Timer`.  `userdata` (an opaque pointer) is an
abstract `Nat`; the atomic `canceled` flag is a `Bool`.  The intrusive `next`
link is represented by list structure. -/
structure Timer where
  timerID : Nat
  callback_ms : Option TimerCB
  callback_ns : Option TimerCB
  userdata : Nat
  interval : Nat
  scheduled : Nat
  canceled : Bool

/-- Embedding of `SDL_AddTimerInternal`: walk the sorted list until the first
entry scheduled strictly later than `timer`, and insert `timer` there. -/
def SDL_AddTimerInternal : List Timer → Timer → List Timer
  | [], timer => [timer]
  | curr :: rest, timer =>
    if timer.scheduled < curr.scheduled then
      timer :: curr :: rest
    else
      curr :: SDL_AddTimerInternal rest timer

/-- The callback dispatch performed by `SDL_TimerThread` when firing a
non-canceled timer: a millisecond callback is invoked through the
`SDL_MS_TO_NS`/`SDL_NS_TO_MS` conversions with the source's `(Uint32)` casts
(the argument cast and the `Uint32` return type appear as `% 2^32`); otherwise
the nanosecond callback is invoked directly.  The `none`/`none` case is
unreachable from `SDL_CreateTimer` and yields 0. -/
def fireCallback (t : Timer) : Nat :=
  match t.callback_ms with
  | some cb => SDL_MS_TO_NS (cb t.userdata t.timerID (SDL_NS_TO_MS t.interval % 2 ^ 32) % 2 ^ 32)
  | none =>
    match t.callback_ns with
    | some cb => cb t.userdata t.timerID t.interval
    | none => 0

/-- Embedding of the dispatch loop inside `SDL_TimerThread` (`while
(data->timers) { ... }`): fire every timer whose deadline is at or before
`tick`, reinserting periodic ones and moving stopped/canceled ones to the local
freelist; stop at the first future deadline, producing the semaphore timeout
`delay` (initially `(Uint64)-1`).  The loop terminates in the source because a
reinserted timer is always scheduled after `tick`; the embedding makes that
explicit with a `fuel` bound and returns `none` if the bound is hit. -/
def SDL_TimerThreadPump : Nat → Nat → List Timer → List Timer →
    Option (List Timer × List Timer × Nat)
  | fuel, tick, timers, freelist =>
    match timers with
    | [] => some ([], freelist, UINT64_MAX)
    | current :: rest =>
      if tick < current.scheduled then
        some (current :: rest, freelist, current.scheduled - tick)
      else
        match fuel with
        | 0 => none
        | fuel + 1 =>
          let interval := if current.canceled then 0 else fireCallback current
          if 0 < interval then
            SDL_TimerThreadPump fuel tick
              (SDL_AddTimerInternal rest
                { current with interval := interval, scheduled := tick + interval })
              freelist
          else
            SDL_TimerThreadPump fuel tick rest
              (freelist ++ [{ current with canceled := true }])

/-! ## Timer registry (`SDL_CreateTimer`, `SDL_RemoveTimer`) -/

/-- Record used for out-of-range heap reads in the registry model; its
`canceled` flag is set so that a dangling reference behaves like an
already-canceled timer. -/
def blankTimer : Timer :=
  { timerID := 0, callback_ms := none, callback_ns := none, userdata := 0,
    interval := 0, scheduled := 0, canceled := true }

/-- Heap read: the record at slot `n` (out-of-range reads yield `blankTimer`,
which is unreachable in well-formed states). -/
def heapGet (l : List Timer) (n : Nat) : Timer := l.getD n blankTimer

/-- Registry-side state of `SDL_TimerData`: a heap of timer records (`store`,
indexed by allocation order, standing for the C pointers), the id registry
`timermap` as a list of `(timerID, ref)` pairs, the producer `pending` list and
the shared `freelist` as lists of references, and the `SDL_GetNextObjectID`
counter. -/
structure RState where
  store : List Timer
  timermap : List (Nat × Nat)
  pending : List Nat
  freelist : List Nat
  nextID : Nat

/-- Result of `SDL_RemoveTimer`: `true`, or `false` with either the
invalid-parameter or the "Timer not found" error set. -/
inductive RemoveResult where
  | success
  | invalidParam
  | notFound
deriving DecidableEq, Repr

/-- Embedding of `SDL_RemoveTimer`: reject id 0; unlink the first `timermap`
entry with the given id; if one was found and its record was not yet canceled,
set the flag and report success, otherwise report "Timer not found". -/
def SDL_RemoveTimer (id : Nat) (st : RState) : RemoveResult × RState :=
  if id = 0 then (.invalidParam, st)
  else
    match st.timermap.find? (fun e => e.1 == id) with
    | none => (.notFound, st)
    | some entry =>
      let st1 := { st with timermap := st.timermap.eraseP (fun e => e.1 == id) }
      let record := heapGet st1.store entry.2
      if record.canceled then (.notFound, st1)
      else
        (.success,
         { st1 with store := st1.store.set entry.2 { record with canceled := true } })

/-- Embedding of `SDL_CreateTimer`, parameterised by `now = SDL_GetTicksNS()`.
Reject the neither-callback case; otherwise take a record off the freelist
(first cancelling its previous id via `SDL_RemoveTimer`) or allocate a fresh
one (allocation is modelled as always succeeding); fill in the fields with a
fresh id and `scheduled = now + interval`; prepend the registry entry and the
pending-list entry; return the id. -/
def SDL_CreateTimer (interval : Nat) (callback_ms callback_ns : Option TimerCB)
    (userdata : Nat) (now : Nat) (st : RState) : Nat × RState :=
  if callback_ms.isNone && callback_ns.isNone then (0, st)
  else
    let popped : Option Nat × RState :=
      match st.freelist with
      | [] => (none, st)
      | r :: rs => (some r, { st with freelist := rs })
    let st1 := popped.2
    let alloc : Nat × RState :=
      match popped.1 with
      | some r => (r, (SDL_RemoveTimer ((heapGet st1.store r).timerID) st1).2)
      | none => (st1.store.length, { st1 with store := st1.store ++ [blankTimer] })
    let r := alloc.1
    let st2 := alloc.2
    let id := st2.nextID
    let timer : Timer :=
      { timerID := id, callback_ms := callback_ms, callback_ns := callback_ns,
        userdata := userdata, interval := interval, scheduled := now + interval,
        canceled := false }
    let st3 := { st2 with store := st2.store.set r timer, nextID := st2.nextID + 1 }
    let st4 := { st3 with timermap := (id, r) :: st3.timermap }
    let st5 := { st4 with pending := r :: st4.pending }
    (id, st5)

/-! ## Precise delay (`SDL_DelayPrecise`)

The environment supplies, per time-advancing call, the actual elapsed duration:
`sleepEl i r` for the `i`-th call when it is `SDL_SYS_DelayNS(r)`, and
`pauseEl i` when it is `SDL_CPUPauseInstruction()`.  `SDL_GetTicksNS()` reads
the clock, which advances only at those calls, so the clock is monotone by
construction.  Every sleep/pause is also recorded as an event, so theorems can
speak about the exact sequence of system calls the algorithm makes.  The
source's loops are embedded with an explicit `fuel` bound (`none` = bound hit);
every loop re-checks its guard before consuming fuel, exactly as the source
checks the guard before each iteration. -/

/-- The short sleep duration `SHORT_SLEEP_NS` (1 ms). -/
def SHORT_SLEEP_NS : Nat := 1 * SDL_NS_PER_MS

/-- A monotonic clock together with the index of the next time-advancing call. -/
structure Clock where
  time : Nat
  idx : Nat
deriving DecidableEq, Repr

/-- The sleep/pause behaviour of the platform: actual elapsed times per call. -/
structure DEnv where
  sleepEl : Nat → Nat → Nat
  pauseEl : Nat → Nat

/-- Effect of `SDL_SYS_DelayNS req` on the clock. -/
def sysDelayNS (env : DEnv) (req : Nat) (c : Clock) : Clock :=
  { time := c.time + env.sleepEl c.idx req, idx := c.idx + 1 }

/-- Effect of `SDL_CPUPauseInstruction` on the clock. -/
def cpuPause (env : DEnv) (c : Clock) : Clock :=
  { time := c.time + env.pauseEl c.idx, idx := c.idx + 1 }

/-- One recorded system call of `SDL_DelayPrecise`.  A step-1 sleep records its
iteration number and the values of `current_sleep_ns` (the request),
`target_sleep_ns`, `max_overshoot_ns` and `current_value` at the call site.
Steps 2 and 3 always request `SHORT_SLEEP_NS`, step 4 always requests 0. -/
inductive DelayEv where
  | sleep1 (iter req ts mo cv : Nat)
  | sleep2
  | sleep3
  | sleep4
  | pause
deriving DecidableEq, Repr

/-- The inner `for` loop of delay step 1, which divides `target_sleep_ns` by
ten until it fits the 10 ms guard band or drops to at most `SHORT_SLEEP_NS`.
The source loop terminates because `ts / 10 < ts`; the embedding carries a
fuel argument (called with `fuel = ts`, far more than the iteration count). -/
def zenoShrink : Nat → Nat → Nat → Nat → Nat
  | 0, _, _, ts => ts
  | fuel + 1, cv, target, ts =>
    if SHORT_SLEEP_NS < ts ∧ target < cv + ts + 10 * SHORT_SLEEP_NS then
      zenoShrink fuel cv target (ts / 10)
    else ts

/-- Outcome of delay step 1: an early `return` with the final clock, or a fall
through to step 2 carrying `max_overshoot_ns` and `current_value`, or fuel
exhaustion. -/
inductive Step1Out where
  | done (c : Clock)
  | fall (mo cv : Nat) (c : Clock)
  | out

/-- Delay step 5: busy spin with CPU pauses until the deadline. -/
def delayStep5 : Nat → Nat → Nat → DEnv → Clock → Option Clock × List DelayEv
  | fuel, cv, target, env, c =>
    if cv < target then
      match fuel with
      | 0 => (none, [])
      | fuel + 1 =>
        let c1 := cpuPause env c
        let rest := delayStep5 fuel c1.time target env c1
        (rest.1, DelayEv.pause :: rest.2)
    else (some c, [])

/-- Delay step 4: zero-duration sleeps while more than `SHORT_SLEEP_NS`
remains, then step 5. -/
def delayStep4 : Nat → Nat → Nat → DEnv → Clock → Option Clock × List DelayEv
  | fuel, cv, target, env, c =>
    if cv + SHORT_SLEEP_NS < target then
      match fuel with
      | 0 => (none, [])
      | fuel + 1 =>
        let c1 := sysDelayNS env 0 c
        let rest := delayStep4 fuel c1.time target env c1
        (rest.1, DelayEv.sleep4 :: rest.2)
    else delayStep5 fuel cv target env c

/-- Delay step 3: 1 ms sleeps, accepting overshoot, while more than 2 ms
remains, with an early return at the deadline; then step 4. -/
def delayStep3 : Nat → Nat → Nat → DEnv → Clock → Option Clock × List DelayEv
  | fuel, cv, target, env, c =>
    if cv + 2 * SHORT_SLEEP_NS < target then
      match fuel with
      | 0 => (none, [])
      | fuel + 1 =>
        let c1 := sysDelayNS env SHORT_SLEEP_NS c
        let cv1 := c1.time
        if target ≤ cv1 then (some c1, [DelayEv.sleep3])
        else
          let rest := delayStep3 fuel cv1 target env c1
          (rest.1, DelayEv.sleep3 :: rest.2)
    else delayStep4 fuel cv target env c

/-- The loop of delay step 2: 1 ms sleeps while `current_value + max_sleep_ns`
is before the deadline, tracking the maximum observed sleep, with an early
return at the deadline; then step 3. -/
def delayStep2Loop : Nat → Nat → Nat → Nat → DEnv → Clock → Option Clock × List DelayEv
  | fuel, max_sleep, cv, target, env, c =>
    if cv + max_sleep < target then
      match fuel with
      | 0 => (none, [])
      | fuel + 1 =>
        let c1 := sysDelayNS env SHORT_SLEEP_NS c
        let now := c1.time
        if target ≤ now then (some c1, [DelayEv.sleep2])
        else
          let next_sleep := now - cv
          let max_sleep1 := if max_sleep < next_sleep then next_sleep else max_sleep
          let rest := delayStep2Loop fuel max_sleep1 now target env c1
          (rest.1, DelayEv.sleep2 :: rest.2)
    else delayStep3 fuel cv target env c

/-- Delay step 2 entry: `max_sleep_ns = SHORT_SLEEP_NS + min(max_overshoot_ns,
SHORT_SLEEP_NS)` (written as in the source), then the loop. -/
def delayStep2 (fuel mo cv target : Nat) (env : DEnv) (c : Clock) :
    Option Clock × List DelayEv :=
  let max_sleep0 := SHORT_SLEEP_NS
  let max_sleep := if mo < max_sleep0 then max_sleep0 + mo else max_sleep0
  delayStep2Loop fuel max_sleep cv target env c

/-- Delay step 1: longish iterative sleeps of `current_sleep_ns = cs`
nanoseconds while `cs` is at least 10 ms and the deadline is more than
`target_sleep_ns + 10 ms` away, tracking the loop-local overshoot maximum `mo`
(reset whenever it reaches `target_sleep_ns`) and shrinking `target_sleep_ns`
when the horizon check fails. `iter` counts loop iterations for the event
trace. -/
def delayStep1 : Nat → Nat → Nat → Nat → Nat → Nat → DEnv → Clock → Nat →
    Step1Out × List DelayEv
  | fuel, cs, ts, mo, cv, target, env, c, iter =>
    if 10 * SHORT_SLEEP_NS ≤ cs ∧ cv + ts + 10 * SHORT_SLEEP_NS < target then
      match fuel with
      | 0 => (.out, [])
      | fuel + 1 =>
        let c1 := sysDelayNS env cs c
        let ev := DelayEv.sleep1 iter cs ts mo cv
        let now := c1.time
        if target ≤ now then (.done c1, [ev])
        else
          let overshoot := now - cv - cs
          let mo1 := if mo < overshoot then overshoot else mo
          let mo2 := if ts ≤ mo1 then 0 else mo1
          let cv1 := now
          if target < cv1 + ts + 10 * SHORT_SLEEP_NS then
            let ts1 := zenoShrink ((target - cv1) / 10) cv1 target ((target - cv1) / 10)
            if ts1 ≤ SHORT_SLEEP_NS then (.fall mo2 cv1 c1, [ev])
            else
              let mo3 := if ts1 ≤ mo2 then 0 else mo2
              let rest := delayStep1 fuel (ts1 - mo3) ts1 mo3 cv1 target env c1 (iter + 1)
              (rest.1, ev :: rest.2)
          else
            let rest := delayStep1 fuel (ts - mo2) ts mo2 cv1 target env c1 (iter + 1)
            (rest.1, ev :: rest.2)
    else (.fall mo cv c, [])

/-- Embedding of `SDL_DelayPrecise ns`: sample the entry time, compute the
deadline, skip straight to step 4 for requests of at most 2 ms, otherwise run
step 1 (when `ns / 10` is at least 10 ms) and fall through steps 2–5.  Returns
the final clock (`none` if a fuel bound was hit) and the trace of system
calls. -/
def SDL_DelayPrecise (fuel ns : Nat) (env : DEnv) (c0 : Clock) :
    Option Clock × List DelayEv :=
  let current_value := c0.time
  let target_value := current_value + ns
  if ns ≤ 2 * SHORT_SLEEP_NS then
    delayStep4 fuel current_value target_value env c0
  else
    let target_sleep := ns / 10
    if 10 * SHORT_SLEEP_NS ≤ target_sleep then
      match delayStep1 fuel (target_sleep - SHORT_SLEEP_NS) target_sleep 0
          current_value target_value env c0 0 with
      | (.done c, evs) => (some c, evs)
      | (.out, evs) => (none, evs)
      | (.fall mo cv c, evs) =>
        let rest := delayStep2 fuel mo cv target_value env c
        (rest.1, evs ++ rest.2)
    else
      delayStep2 fuel 0 current_value target_value env c0

/-- An environment whose sleeps take exactly the requested time and whose CPU
pauses take 1 ms. -/
def exactEnv : DEnv :=
  { sleepEl := fun _ r => r, pauseEl := fun _ => 1000000 }

/-- Correctness predicate for a step-1 outcome: an early return has reached
the deadline; a fall-through hands step 2 a `current_value` that is at most
the clock time. -/
def step1OK (target : Nat) : Step1Out → Prop
  | .done c' => target ≤ c'.time
  | .fall _ cv' c' => cv' ≤ c'.time
  | .out => True

/-- An environment whose sleeps overshoot by a full second (used to exercise
early returns on concrete runs). -/
def bigEnv : DEnv :=
  { sleepEl := fun _ r => r + 1000000000, pauseEl := fun _ => 1000000 }

/-- Concrete timer record used on concrete runs. -/
def timerA : Timer :=
  { timerID := 1, callback_ms := none, callback_ns := some fun _ _ _ => 0,
    userdata := 0, interval := 5, scheduled := 10, canceled := false }

/-- Concrete timer record whose nanosecond callback always returns 5. -/
def timerB : Timer :=
  { timerID := 7, callback_ms := none, callback_ns := some fun _ _ _ => 5,
    userdata := 0, interval := 3, scheduled := 0, canceled := false }

/-- Concrete timer record scheduled at 20. -/
def timerC : Timer :=
  { timerID := 9, callback_ms := none, callback_ns := some fun _ _ _ => 0,
    userdata := 0, interval := 7, scheduled := 20, canceled := false }

/-- Empty registry state with the id counter at 1. -/
def rstate0 : RState :=
  { store := [], timermap := [], pending := [], freelist := [], nextID := 1 }

/-- Registry state holding one live timer with id 1 at heap slot 0. -/
def rstate1 : RState :=
  { store := [timerA], timermap := [(1, 0)], pending := [], freelist := [], nextID := 2 }

/-! # Theorems -/

/-! ## Helper lemmas -/

/-- Dividing by a gcd-reduced fraction equals dividing by the unreduced one. -/
theorem reduced_scale (d N f : Nat) :
    d * (N / Nat.gcd N f) / (f / Nat.gcd N f) = d * N / f := by
  have h1 : Nat.gcd N f ∣ N := Nat.gcd_dvd_left N f
  have h2 : Nat.gcd N f ∣ f := Nat.gcd_dvd_right N f
  rw [← Nat.mul_div_assoc d h1, Nat.div_div_eq_div_mul, Nat.mul_div_cancel' h2]

/-- The wrapping `Uint64` subtraction recovers the elapsed delta of a sample
taken `d` ticks after the origin, as long as neither quantity has lapped a
full `2^64`. -/
theorem u64Sub_add (ts d : Nat) (hd : d < 2 ^ 64) :
    u64Sub ((ts + d) % 2 ^ 64) ts = d := by
  unfold u64Sub
  have hM : (2 : Nat) ^ 64 = 18446744073709551616 := by norm_num
  rw [hM] at hd ⊢
  omega

/-- On a sample taken `d` ticks after the origin, with a product that does not
wrap (the source's asserted precondition), `SDL_GetTicksNS` computes the plain
scaled delta. -/
theorem SDL_GetTicksNS_delta (st : TicksState) (d : Nat)
    (hd : d < 2 ^ 64) (hmul : d * st.tick_numerator_ns < 2 ^ 64) :
    SDL_GetTicksNS st ((st.tick_start + d) % 2 ^ 64) =
      d * st.tick_numerator_ns / st.tick_denominator_ns := by
  unfold SDL_GetTicksNS
  rw [u64Sub_add st.tick_start d hd, Nat.mod_eq_of_lt hmul]

/-- The millisecond analogue of `SDL_GetTicksNS_delta`. -/
theorem SDL_GetTicks_delta (st : TicksState) (d : Nat)
    (hd : d < 2 ^ 64) (hmul : d * st.tick_numerator_ms < 2 ^ 64) :
    SDL_GetTicks st ((st.tick_start + d) % 2 ^ 64) =
      d * st.tick_numerator_ms / st.tick_denominator_ms := by
  unfold SDL_GetTicks
  rw [u64Sub_add st.tick_start d hd, Nat.mod_eq_of_lt hmul]

/-- The reduced millisecond numerator never exceeds the reduced nanosecond
numerator (so the nanosecond no-wrap assertion covers the millisecond product
as well). -/
theorem tick_numerator_ms_le (f p : Nat) :
    (SDL_InitTicks f p).tick_numerator_ms ≤ (SDL_InitTicks f p).tick_numerator_ns := by
  simp only [SDL_InitTicks, SDL_NS_PER_SECOND, SDL_MS_PER_SECOND]
  have hg1pos : 0 < Nat.gcd 1000000000 f := Nat.gcd_pos_of_pos_left f (by norm_num)
  have hg2pos : 0 < Nat.gcd 1000 f := Nat.gcd_pos_of_pos_left f (by norm_num)
  have hsplit : Nat.gcd 1000000000 f ∣ Nat.gcd 1000000 f * Nat.gcd 1000 f := by
    have h9 : (1000000000 : Nat) = 1000000 * 1000 := by norm_num
    rw [h9, Nat.gcd_comm (1000000 * 1000) f, Nat.gcd_comm 1000000 f, Nat.gcd_comm 1000 f]
    exact Nat.gcd_mul_dvd_mul_gcd f 1000000 1000
  have hle : Nat.gcd 1000000000 f ≤ 1000000 * Nat.gcd 1000 f := by
    have h1 : Nat.gcd 1000000 f ≤ 1000000 :=
      Nat.le_of_dvd (by norm_num) (Nat.gcd_dvd_left 1000000 f)
    have h2 : Nat.gcd 1000000000 f ≤ Nat.gcd 1000000 f * Nat.gcd 1000 f :=
      Nat.le_of_dvd (Nat.mul_pos (Nat.gcd_pos_of_pos_left f (by norm_num)) hg2pos) hsplit
    calc Nat.gcd 1000000000 f ≤ Nat.gcd 1000000 f * Nat.gcd 1000 f := h2
      _ ≤ 1000000 * Nat.gcd 1000 f := Nat.mul_le_mul h1 (Nat.le_refl _)
  have e1 : 1000000000 / Nat.gcd 1000000000 f * Nat.gcd 1000000000 f = 1000000000 :=
    Nat.div_mul_cancel (Nat.gcd_dvd_left 1000000000 f)
  have e2 : 1000 / Nat.gcd 1000 f * Nat.gcd 1000 f = 1000 :=
    Nat.div_mul_cancel (Nat.gcd_dvd_left 1000 f)
  have key : 1000 / Nat.gcd 1000 f * Nat.gcd 1000000000 f ≤
      1000000000 / Nat.gcd 1000000000 f * Nat.gcd 1000000000 f := by
    calc 1000 / Nat.gcd 1000 f * Nat.gcd 1000000000 f
        ≤ 1000 / Nat.gcd 1000 f * (1000000 * Nat.gcd 1000 f) :=
          Nat.mul_le_mul (Nat.le_refl _) hle
      _ = 1000 / Nat.gcd 1000 f * Nat.gcd 1000 f * 1000000 := by ring
      _ = 1000 * 1000000 := by rw [e2]
      _ = 1000000000 := by norm_num
      _ = 1000000000 / Nat.gcd 1000000000 f * Nat.gcd 1000000000 f := e1.symm
  exact Nat.le_of_mul_le_mul_right key hg1pos

/-- `SDL_AddTimerInternal` splits the list at the first entry scheduled
strictly later than the inserted timer. -/
theorem SDL_AddTimerInternal_eq (l : List Timer) (t : Timer) :
    SDL_AddTimerInternal l t =
      l.takeWhile (fun c => c.scheduled ≤ t.scheduled) ++
        t :: l.dropWhile (fun c => c.scheduled ≤ t.scheduled) := by
  induction l with
  | nil => rfl
  | cons c rest ih =>
    by_cases h : t.scheduled < c.scheduled
    · rw [SDL_AddTimerInternal, if_pos h]
      have hb : (fun c => decide (c.scheduled ≤ t.scheduled)) c = false := by
        simp; omega
      simp [List.takeWhile_cons, List.dropWhile_cons, hb]
    · rw [SDL_AddTimerInternal, if_neg h]
      have hb : (fun c => decide (c.scheduled ≤ t.scheduled)) c = true := by
        simp; omega
      simp [List.takeWhile_cons, List.dropWhile_cons, hb, ih]

/-- Every member of an insertion result is the inserted timer or an original
member. -/
theorem SDL_AddTimerInternal_mem (l : List Timer) (t x : Timer)
    (hx : x ∈ SDL_AddTimerInternal l t) : x = t ∨ x ∈ l := by
  rw [SDL_AddTimerInternal_eq] at hx
  rcases List.mem_append.1 hx with h | h
  · exact Or.inr ((List.takeWhile_sublist _).subset h)
  · rcases List.mem_cons.1 h with h | h
    · exact Or.inl h
    · exact Or.inr ((List.dropWhile_sublist _).subset h)

/-- Insertion preserves sortedness by non-decreasing deadline. -/
theorem SDL_AddTimerInternal_sorted (l : List Timer) (t : Timer)
    (h : List.Sorted (fun a b : Timer => a.scheduled ≤ b.scheduled) l) :
    List.Sorted (fun a b : Timer => a.scheduled ≤ b.scheduled)
      (SDL_AddTimerInternal l t) := by
  induction l with
  | nil => simp [SDL_AddTimerInternal]
  | cons c rest ih =>
    rw [List.sorted_cons] at h
    by_cases hc : t.scheduled < c.scheduled
    · rw [SDL_AddTimerInternal, if_pos hc, List.sorted_cons, List.sorted_cons]
      refine ⟨?_, h.1, h.2⟩
      intro b hb
      rcases List.mem_cons.1 hb with rfl | hb
      · omega
      · have := h.1 b hb; omega
    · rw [SDL_AddTimerInternal, if_neg hc, List.sorted_cons]
      refine ⟨?_, ih h.2⟩
      intro b hb
      rcases SDL_AddTimerInternal_mem rest t b hb with rfl | hb
      · omega
      · exact h.1 b hb

/-- In a sorted list, everything past the insertion point of `t` is scheduled
strictly later than `t`. -/
theorem dropWhile_scheduled_gt (l : List Timer) (t : Timer)
    (h : List.Sorted (fun a b : Timer => a.scheduled ≤ b.scheduled) l) :
    ∀ x ∈ l.dropWhile (fun c => c.scheduled ≤ t.scheduled), t.scheduled < x.scheduled := by
  induction l with
  | nil => simp
  | cons c rest ih =>
    rw [List.sorted_cons] at h
    by_cases hc : c.scheduled ≤ t.scheduled
    · rw [List.dropWhile_cons]
      simp only [decide_eq_true_eq]
      rw [if_pos hc]
      exact ih h.2
    · rw [List.dropWhile_cons]
      simp only [decide_eq_true_eq]
      rw [if_neg hc]
      intro x hx
      rcases List.mem_cons.1 hx with rfl | hx
      · omega
      · have := h.1 x hx; omega

/-! ## C3: sorted insertion with FIFO tie order -/

/-- C3: on a list sorted by non-decreasing `scheduled`, `SDL_AddTimerInternal`
inserts the new record exactly after the prefix of entries scheduled no later
than it (so later-inserted equal-deadline records go after earlier ones), the
result is again sorted, and every entry past the insertion point is scheduled
strictly later. -/
theorem SDL_AddTimerInternal_correct (l : List Timer) (t : Timer)
    (h : List.Sorted (fun a b : Timer => a.scheduled ≤ b.scheduled) l) :
    SDL_AddTimerInternal l t =
      l.takeWhile (fun c => c.scheduled ≤ t.scheduled) ++
        t :: l.dropWhile (fun c => c.scheduled ≤ t.scheduled) ∧
    List.Sorted (fun a b : Timer => a.scheduled ≤ b.scheduled) (SDL_AddTimerInternal l t) ∧
    (∀ x ∈ l.takeWhile (fun c => c.scheduled ≤ t.scheduled), x.scheduled ≤ t.scheduled) ∧
    (∀ x ∈ l.dropWhile (fun c => c.scheduled ≤ t.scheduled), t.scheduled < x.scheduled) :=
  ⟨SDL_AddTimerInternal_eq l t, SDL_AddTimerInternal_sorted l t h,
   fun x hx => by simpa using List.mem_takeWhile_imp hx,
   dropWhile_scheduled_gt l t h⟩

/-- C3 witness: a concrete sorted two-element list and an equal-deadline
insertion. -/
theorem SDL_AddTimerInternal_correct_witness :
    List.Sorted (fun a b : Timer => a.scheduled ≤ b.scheduled) [timerA, timerC] ∧
    (SDL_AddTimerInternal [timerA, timerC] timerA =
      [timerA, timerC].takeWhile (fun c => c.scheduled ≤ timerA.scheduled) ++
        timerA :: [timerA, timerC].dropWhile (fun c => c.scheduled ≤ timerA.scheduled) ∧
    List.Sorted (fun a b : Timer => a.scheduled ≤ b.scheduled)
      (SDL_AddTimerInternal [timerA, timerC] timerA) ∧
    (∀ x ∈ [timerA, timerC].takeWhile (fun c => c.scheduled ≤ timerA.scheduled),
      x.scheduled ≤ timerA.scheduled) ∧
    (∀ x ∈ [timerA, timerC].dropWhile (fun c => c.scheduled ≤ timerA.scheduled),
      timerA.scheduled < x.scheduled)) :=
  ⟨by simp [List.sorted_cons, timerA, timerC],
   SDL_AddTimerInternal_correct [timerA, timerC] timerA
     (by simp [List.sorted_cons, timerA, timerC])⟩

/-! ## C7: the tick origin recorded by `SDL_InitTicks` -/

/-- C7 counterexample: when the performance counter reads zero at init, the
recorded origin is not `max(perf_now(), 1)`: the source's `--tick_start`
wraps the `Uint64` zero to `2^64 - 1`, not to 1. -/
theorem SDL_InitTicks_zero_counter_not_one :
    (SDL_InitTicks 1000000000 0).tick_start ≠ max 0 1 := by decide

/-- C7 amended: `init_ticks` records `tick_start = perf_now()` when the counter
is nonzero; a zero reading is decremented by one tick, wrapping to `2^64 - 1`;
in all cases `tick_start` is never zero. -/
theorem SDL_InitTicks_tick_start (f p : Nat) :
    (SDL_InitTicks f p).tick_start ≠ 0 ∧
    (p ≠ 0 → (SDL_InitTicks f p).tick_start = p) ∧
    (p = 0 → (SDL_InitTicks f p).tick_start = 2 ^ 64 - 1) := by
  simp only [SDL_InitTicks, UINT64_MAX]
  by_cases hp : p = 0 <;> simp [hp]

/-- C7 witness: the amended statement evaluated at a zero counter reading. -/
theorem SDL_InitTicks_tick_start_witness :
    (SDL_InitTicks 1000000000 0).tick_start ≠ 0 ∧
    ((0 : Nat) ≠ 0 → (SDL_InitTicks 1000000000 0).tick_start = 0) ∧
    ((0 : Nat) = 0 → (SDL_InitTicks 1000000000 0).tick_start = 2 ^ 64 - 1) :=
  SDL_InitTicks_tick_start 1000000000 0

/-! ## C9: monotonicity and ns/ms agreement of the tick conversions -/

/-- C9: with the scalers computed by `SDL_InitTicks` from one frequency, and
samples taken `d` and `d'` ticks after the origin on one thread (`d ≤ d'`,
with the counter not having lapped a full `2^64` and the scaled product not
wrapping — the condition the source asserts), `SDL_GetTicksNS` is
non-decreasing, and for any single sample the nanosecond conversion divided by
10^6 agrees with the millisecond conversion within ±1 (they are in fact
equal). -/
theorem SDL_GetTicks_round_trip (f p d d' : Nat) (hd : d ≤ d') (hd64 : d' < 2 ^ 64)
    (hmul : d' * (SDL_InitTicks f p).tick_numerator_ns < 2 ^ 64) :
    SDL_GetTicksNS (SDL_InitTicks f p) (((SDL_InitTicks f p).tick_start + d) % 2 ^ 64) ≤
      SDL_GetTicksNS (SDL_InitTicks f p) (((SDL_InitTicks f p).tick_start + d') % 2 ^ 64) ∧
    SDL_GetTicksNS (SDL_InitTicks f p) (((SDL_InitTicks f p).tick_start + d) % 2 ^ 64) /
        1000000 ≤
      SDL_GetTicks (SDL_InitTicks f p) (((SDL_InitTicks f p).tick_start + d) % 2 ^ 64) + 1 ∧
    SDL_GetTicks (SDL_InitTicks f p) (((SDL_InitTicks f p).tick_start + d) % 2 ^ 64) ≤
      SDL_GetTicksNS (SDL_InitTicks f p) (((SDL_InitTicks f p).tick_start + d) % 2 ^ 64) /
        1000000 + 1 := by
  have hdlt : d < 2 ^ 64 := Nat.lt_of_le_of_lt hd hd64
  have hmuld : d * (SDL_InitTicks f p).tick_numerator_ns < 2 ^ 64 :=
    Nat.lt_of_le_of_lt (Nat.mul_le_mul hd (Nat.le_refl _)) hmul
  have hmulms : d * (SDL_InitTicks f p).tick_numerator_ms < 2 ^ 64 :=
    Nat.lt_of_le_of_lt (Nat.mul_le_mul (Nat.le_refl d) (tick_numerator_ms_le f p)) hmuld
  rw [SDL_GetTicksNS_delta _ _ hdlt hmuld, SDL_GetTicksNS_delta _ _ hd64 hmul,
      SDL_GetTicks_delta _ _ hdlt hmulms]
  have key : d * (SDL_InitTicks f p).tick_numerator_ns /
        (SDL_InitTicks f p).tick_denominator_ns / 1000000 =
      d * (SDL_InitTicks f p).tick_numerator_ms /
        (SDL_InitTicks f p).tick_denominator_ms := by
    simp only [SDL_InitTicks]
    rw [reduced_scale, reduced_scale, Nat.div_div_eq_div_mul]
    have h9 : d * SDL_NS_PER_SECOND = d * SDL_MS_PER_SECOND * 1000000 := by
      simp only [SDL_NS_PER_SECOND, SDL_MS_PER_SECOND]
      ring
    rw [h9, Nat.mul_div_mul_right _ _ (by norm_num : (0 : Nat) < 1000000)]
  refine ⟨Nat.div_le_div_right (Nat.mul_le_mul hd (Nat.le_refl _)), by omega, by omega⟩

/-- C9 witness: frequency 3 with a zero counter reading at init (so the origin
is the wrapped `2^64 - 1`), sampled 3 and then 6 ticks later. -/
theorem SDL_GetTicks_round_trip_witness :
    (3 : Nat) ≤ 6 ∧ (6 : Nat) < 2 ^ 64 ∧
    6 * (SDL_InitTicks 3 0).tick_numerator_ns < 2 ^ 64 ∧
    (SDL_GetTicksNS (SDL_InitTicks 3 0) (((SDL_InitTicks 3 0).tick_start + 3) % 2 ^ 64) ≤
      SDL_GetTicksNS (SDL_InitTicks 3 0) (((SDL_InitTicks 3 0).tick_start + 6) % 2 ^ 64) ∧
    SDL_GetTicksNS (SDL_InitTicks 3 0) (((SDL_InitTicks 3 0).tick_start + 3) % 2 ^ 64) /
        1000000 ≤
      SDL_GetTicks (SDL_InitTicks 3 0) (((SDL_InitTicks 3 0).tick_start + 3) % 2 ^ 64) + 1 ∧
    SDL_GetTicks (SDL_InitTicks 3 0) (((SDL_InitTicks 3 0).tick_start + 3) % 2 ^ 64) ≤
      SDL_GetTicksNS (SDL_InitTicks 3 0) (((SDL_InitTicks 3 0).tick_start + 3) % 2 ^ 64) /
        1000000 + 1) :=
  ⟨by norm_num, by norm_num, by decide,
   SDL_GetTicks_round_trip 3 0 3 6 (by norm_num) (by norm_num) (by decide)⟩

/-! ## C6: the `"TIMER_RESOLUTION"` hint-change handler -/

/-- C6 counterexample: a hint value of `"0"` is not treated like unset; it
parses to period 0 (disabling the request), not to the default 1 ms. -/
theorem SDL_TimerResolutionChanged_zero_string :
    SDL_TimerResolutionChanged false (some "0") = some 0 ∧
    (some (0 : Int)) ≠ (some (1 : Int)) := by decide

/-- C6 amended: an unset or empty hint installs the default period of 1 ms;
the string `"0"` instead yields period 0 (the "no request" value), which is
passed to `SDL_SetSystemTimerResolutionMS` only when the old and new hint
pointers differ, and never installs the 1 ms default. -/
theorem SDL_TimerResolutionChanged_spec (b : Bool) :
    SDL_TimerResolutionChanged b none = some 1 ∧
    SDL_TimerResolutionChanged b (some "") = some 1 ∧
    SDL_TimerResolutionChanged b (some "0") = (if b then none else some 0) := by
  cases b <;> decide

/-! ## C2: `SDL_RemoveTimer` -/

/-- Reading back the position just written in a heap list. -/
theorem heapGet_set (l : List Timer) (n : Nat) (a : Timer) :
    heapGet (l.set n a) n = if n < l.length then a else heapGet l n := by
  unfold heapGet
  induction l generalizing n with
  | nil => simp
  | cons x xs ih =>
    cases n with
    | zero => simp
    | succ m => simpa using ih m

/-- Out-of-range heap reads yield the blank record. -/
theorem heapGet_oob (l : List Timer) (n : Nat) (hn : ¬ n < l.length) :
    heapGet l n = blankTimer := by
  unfold heapGet
  rw [List.getD_eq_getElem?_getD, List.getElem?_eq_none (by omega)]
  rfl

/-- C2: `SDL_RemoveTimer 0` fails with the invalid-parameter error and leaves
the state untouched; for a nonzero id the call succeeds exactly when a
`timermap` entry with that id exists and its record's `canceled` flag was still
clear, and on success that flag is set by the call. -/
theorem SDL_RemoveTimer_correct (st : RState) (id : Nat) (h : id ≠ 0) :
    SDL_RemoveTimer 0 st = (.invalidParam, st) ∧
    ((SDL_RemoveTimer id st).1 = .success ↔
      ∃ e, st.timermap.find? (fun x => x.1 == id) = some e ∧
        (heapGet st.store e.2).canceled = false) ∧
    (∀ e, st.timermap.find? (fun x => x.1 == id) = some e →
      (SDL_RemoveTimer id st).1 = .success →
      (heapGet (SDL_RemoveTimer id st).2.store e.2).canceled = true) := by
  refine ⟨by simp [SDL_RemoveTimer], ?_, ?_⟩
  · simp only [SDL_RemoveTimer, if_neg h]
    cases hf : st.timermap.find? (fun x => x.1 == id) with
    | none => simp
    | some e =>
      simp only [hf]
      by_cases hc : (heapGet st.store e.2).canceled
      · rw [if_pos hc]
        simp [hc]
      · rw [if_neg hc]
        simp [hc]
  · intro e hf hs
    simp only [SDL_RemoveTimer, if_neg h, hf] at hs ⊢
    by_cases hc : (heapGet st.store e.2).canceled
    · rw [if_pos hc] at hs
      simp at hs
    · rw [if_neg hc] at hs ⊢
      rw [heapGet_set]
      by_cases hl : e.2 < st.store.length
      · rw [if_pos hl]
      · rw [if_neg hl, heapGet_oob _ _ hl]
        rfl

/-- C2 witness: a concrete registry with one live, not-yet-canceled timer. -/
theorem SDL_RemoveTimer_correct_witness :
    SDL_RemoveTimer 0 rstate1 = (.invalidParam, rstate1) ∧
    ((SDL_RemoveTimer 1 rstate1).1 = .success ↔
      ∃ e, rstate1.timermap.find? (fun x => x.1 == 1) = some e ∧
        (heapGet rstate1.store e.2).canceled = false) ∧
    (∀ e, rstate1.timermap.find? (fun x => x.1 == 1) = some e →
      (SDL_RemoveTimer 1 rstate1).1 = .success →
      (heapGet (SDL_RemoveTimer 1 rstate1).2.store e.2).canceled = true) :=
  SDL_RemoveTimer_correct rstate1 1 (by decide)

/-! ## C5: callback validation in `SDL_CreateTimer` -/

/-- `SDL_RemoveTimer` never changes the id counter. -/
theorem SDL_RemoveTimer_nextID (id : Nat) (st : RState) :
    (SDL_RemoveTimer id st).2.nextID = st.nextID := by
  unfold SDL_RemoveTimer
  split
  · rfl
  · split
    · rfl
    · dsimp only
      split <;> rfl

/-- With at least one callback supplied, `SDL_CreateTimer` returns the fresh
object id. -/
theorem SDL_CreateTimer_id (interval : Nat) (cb_ms cb_ns : Option TimerCB)
    (u now : Nat) (st : RState) (hb : ¬ (cb_ms.isNone && cb_ns.isNone) = true) :
    (SDL_CreateTimer interval cb_ms cb_ns u now st).1 = st.nextID := by
  unfold SDL_CreateTimer
  rw [if_neg hb]
  cases hfl : st.freelist with
  | nil => simp
  | cons r rs => simp [SDL_RemoveTimer_nextID]

/-- C5 counterexample: supplying both a millisecond and a nanosecond callback
is not rejected; the call returns a nonzero id. -/
theorem SDL_CreateTimer_both_callbacks_accepted :
    (SDL_CreateTimer 100 (some fun _ _ _ => 0) (some fun _ _ _ => 0) 0 5 rstate0).1 ≠ 0 := by
  have h1 : (SDL_CreateTimer 100 (some fun _ _ _ => 0) (some fun _ _ _ => 0) 0 5 rstate0).1 = 1 :=
    rfl
  omega

/-- C5 amended: `SDL_CreateTimer` fails with the invalid-parameter error
(returning id 0) exactly when neither callback is provided; supplying both
callbacks is accepted (the worker then prefers the millisecond one). -/
theorem SDL_CreateTimer_invalid_iff (interval : Nat) (cb_ms cb_ns : Option TimerCB)
    (u now : Nat) (st : RState) (h : st.nextID ≠ 0) :
    ((SDL_CreateTimer interval cb_ms cb_ns u now st).1 = 0 ↔
      (cb_ms = none ∧ cb_ns = none)) := by
  by_cases hb : (cb_ms.isNone && cb_ns.isNone) = true
  · have h0 : (SDL_CreateTimer interval cb_ms cb_ns u now st).1 = 0 := by
      unfold SDL_CreateTimer
      rw [if_pos hb]
    simp only [Bool.and_eq_true, Option.isNone_iff_eq_none] at hb
    rw [h0]
    simp [hb]
  · rw [SDL_CreateTimer_id interval cb_ms cb_ns u now st hb]
    simp only [Bool.and_eq_true, Option.isNone_iff_eq_none] at hb
    constructor
    · intro h0
      exact absurd h0 h
    · intro hcb
      exact absurd hcb hb

/-- C5 witness: the amended statement at the neither-callback input. -/
theorem SDL_CreateTimer_invalid_iff_witness :
    ((SDL_CreateTimer 100 none none 0 5 rstate0).1 = 0 ↔
      ((none : Option TimerCB) = none ∧ (none : Option TimerCB) = none)) :=
  SDL_CreateTimer_invalid_iff 100 none none 0 5 rstate0 (by decide)

/-! ## C4: firing, rescheduling, and recycling in the worker loop -/

/-- C4: when the worker's dispatch loop reaches a due, non-canceled timer at
sampled time `tick`, a positive callback result `I` makes it reinsert the
record with `interval = I` and `scheduled = tick + I` (recomputed from the
sampled tick), while a zero result makes it mark the record canceled and
append it to the local freelist. -/
theorem SDL_TimerThreadPump_fire (fuel tick : Nat) (current : Timer)
    (rest freelist : List Timer) (hc : current.canceled = false)
    (hdue : current.scheduled ≤ tick) :
    (0 < fireCallback current →
      SDL_TimerThreadPump (fuel + 1) tick (current :: rest) freelist =
        SDL_TimerThreadPump fuel tick
          (SDL_AddTimerInternal rest
            { current with interval := fireCallback current,
                           scheduled := tick + fireCallback current })
          freelist) ∧
    (fireCallback current = 0 →
      SDL_TimerThreadPump (fuel + 1) tick (current :: rest) freelist =
        SDL_TimerThreadPump fuel tick rest
          (freelist ++ [{ current with canceled := true }])) := by
  have hnlt : ¬ tick < current.scheduled := by omega
  constructor
  · intro hI
    conv_lhs => rw [SDL_TimerThreadPump]
    rw [if_neg hnlt]
    dsimp only
    rw [hc]
    simp only [Bool.false_eq_true, if_false]
    rw [if_pos hI]
  · intro hI
    conv_lhs => rw [SDL_TimerThreadPump]
    rw [if_neg hnlt]
    dsimp only
    rw [hc]
    simp only [Bool.false_eq_true, if_false]
    rw [if_neg (by omega : ¬ 0 < fireCallback current)]

/-- C4 witness: a concrete due timer whose nanosecond callback returns 5. -/
theorem SDL_TimerThreadPump_fire_witness :
    (0 < fireCallback timerB →
      SDL_TimerThreadPump 1 0 [timerB] [] =
        SDL_TimerThreadPump 0 0
          (SDL_AddTimerInternal []
            { timerB with interval := fireCallback timerB,
                          scheduled := 0 + fireCallback timerB }) []) ∧
    (fireCallback timerB = 0 →
      SDL_TimerThreadPump 1 0 [timerB] [] =
        SDL_TimerThreadPump 0 0 [] ([] ++ [{ timerB with canceled := true }])) :=
  SDL_TimerThreadPump_fire 0 0 timerB [] [] rfl (by decide)

/-! ## Delay-loop lemmas -/

/-- If step 5 returns, the deadline has passed. -/
theorem delayStep5_some (target : Nat) (env : DEnv) :
    ∀ (fuel cv : Nat) (c c' : Clock) (evs : List DelayEv),
      delayStep5 fuel cv target env c = (some c', evs) → cv ≤ c.time → target ≤ c'.time := by
  intro fuel
  induction fuel with
  | zero =>
    intro cv c c' evs h hcv
    rw [delayStep5] at h
    by_cases hg : cv < target
    · rw [if_pos hg] at h
      simp at h
    · rw [if_neg hg] at h
      injection h with h1 h2
      injection h1 with h1
      subst h1
      omega
  | succ n ih =>
    intro cv c c' evs h hcv
    rw [delayStep5] at h
    by_cases hg : cv < target
    · rw [if_pos hg] at h
      dsimp only at h
      rcases hrec : delayStep5 n (cpuPause env c).time target env (cpuPause env c) with ⟨res, tr⟩
      rw [hrec] at h
      injection h with h1 h2
      subst h1
      exact ih _ _ _ _ (by rw [hrec]) (Nat.le_refl _)
    · rw [if_neg hg] at h
      injection h with h1 h2
      injection h1 with h1
      subst h1
      omega

/-- If step 4 returns, the deadline has passed. -/
theorem delayStep4_some (target : Nat) (env : DEnv) :
    ∀ (fuel cv : Nat) (c c' : Clock) (evs : List DelayEv),
      delayStep4 fuel cv target env c = (some c', evs) → cv ≤ c.time → target ≤ c'.time := by
  intro fuel
  induction fuel with
  | zero =>
    intro cv c c' evs h hcv
    rw [delayStep4] at h
    by_cases hg : cv + SHORT_SLEEP_NS < target
    · rw [if_pos hg] at h
      simp at h
    · rw [if_neg hg] at h
      exact delayStep5_some target env 0 cv c c' evs h hcv
  | succ n ih =>
    intro cv c c' evs h hcv
    rw [delayStep4] at h
    by_cases hg : cv + SHORT_SLEEP_NS < target
    · rw [if_pos hg] at h
      dsimp only at h
      rcases hrec : delayStep4 n (sysDelayNS env 0 c).time target env (sysDelayNS env 0 c) with ⟨res, tr⟩
      rw [hrec] at h
      injection h with h1 h2
      subst h1
      exact ih _ _ _ _ (by rw [hrec]) (Nat.le_refl _)
    · rw [if_neg hg] at h
      exact delayStep5_some target env (n + 1) cv c c' evs h hcv

/-- If step 3 returns, the deadline has passed. -/
theorem delayStep3_some (target : Nat) (env : DEnv) :
    ∀ (fuel cv : Nat) (c c' : Clock) (evs : List DelayEv),
      delayStep3 fuel cv target env c = (some c', evs) → cv ≤ c.time → target ≤ c'.time := by
  intro fuel
  induction fuel with
  | zero =>
    intro cv c c' evs h hcv
    rw [delayStep3] at h
    by_cases hg : cv + 2 * SHORT_SLEEP_NS < target
    · rw [if_pos hg] at h
      simp at h
    · rw [if_neg hg] at h
      exact delayStep4_some target env 0 cv c c' evs h hcv
  | succ n ih =>
    intro cv c c' evs h hcv
    rw [delayStep3] at h
    by_cases hg : cv + 2 * SHORT_SLEEP_NS < target
    · rw [if_pos hg] at h
      dsimp only at h
      by_cases hret : target ≤ (sysDelayNS env SHORT_SLEEP_NS c).time
      · rw [if_pos hret] at h
        injection h with h1 h2
        injection h1 with h1
        subst h1
        exact hret
      · rw [if_neg hret] at h
        rcases hrec : delayStep3 n (sysDelayNS env SHORT_SLEEP_NS c).time target env
            (sysDelayNS env SHORT_SLEEP_NS c) with ⟨res, tr⟩
        rw [hrec] at h
        injection h with h1 h2
        subst h1
        exact ih _ _ _ _ (by rw [hrec]) (Nat.le_refl _)
    · rw [if_neg hg] at h
      exact delayStep4_some target env (n + 1) cv c c' evs h hcv

/-- If the step 2 loop returns, the deadline has passed. -/
theorem delayStep2Loop_some (target : Nat) (env : DEnv) :
    ∀ (fuel max_sleep cv : Nat) (c c' : Clock) (evs : List DelayEv),
      delayStep2Loop fuel max_sleep cv target env c = (some c', evs) →
      cv ≤ c.time → target ≤ c'.time := by
  intro fuel
  induction fuel with
  | zero =>
    intro ms cv c c' evs h hcv
    rw [delayStep2Loop] at h
    by_cases hg : cv + ms < target
    · rw [if_pos hg] at h
      simp at h
    · rw [if_neg hg] at h
      exact delayStep3_some target env 0 cv c c' evs h hcv
  | succ n ih =>
    intro ms cv c c' evs h hcv
    rw [delayStep2Loop] at h
    by_cases hg : cv + ms < target
    · rw [if_pos hg] at h
      dsimp only at h
      by_cases hret : target ≤ (sysDelayNS env SHORT_SLEEP_NS c).time
      · rw [if_pos hret] at h
        injection h with h1 h2
        injection h1 with h1
        subst h1
        exact hret
      · rw [if_neg hret] at h
        rcases hrec : delayStep2Loop n
            (if ms < (sysDelayNS env SHORT_SLEEP_NS c).time - cv
              then (sysDelayNS env SHORT_SLEEP_NS c).time - cv else ms)
            (sysDelayNS env SHORT_SLEEP_NS c).time target env
            (sysDelayNS env SHORT_SLEEP_NS c) with ⟨res, tr⟩
        rw [hrec] at h
        injection h with h1 h2
        subst h1
        exact ih _ _ _ _ _ (by rw [hrec]) (Nat.le_refl _)
    · rw [if_neg hg] at h
      exact delayStep3_some target env (n + 1) cv c c' evs h hcv

/-- If step 2 returns, the deadline has passed. -/
theorem delayStep2_some (fuel mo cv target : Nat) (env : DEnv) (c c' : Clock)
    (evs : List DelayEv) (h : delayStep2 fuel mo cv target env c = (some c', evs))
    (hcv : cv ≤ c.time) : target ≤ c'.time := by
  unfold delayStep2 at h
  exact delayStep2Loop_some target env fuel _ cv c c' evs h hcv

/-- Step 1 outcomes are correct: early returns reach the deadline and
fall-throughs carry an up-to-date `current_value`. -/
theorem delayStep1_ok (target : Nat) (env : DEnv) :
    ∀ (fuel cs ts mo cv iter : Nat) (c : Clock), cv ≤ c.time →
      step1OK target (delayStep1 fuel cs ts mo cv target env c iter).1 := by
  intro fuel
  induction fuel with
  | zero =>
    intro cs ts mo cv iter c hcv
    rw [delayStep1]
    by_cases hg : 10 * SHORT_SLEEP_NS ≤ cs ∧ cv + ts + 10 * SHORT_SLEEP_NS < target
    · rw [if_pos hg]
      trivial
    · rw [if_neg hg]
      exact hcv
  | succ n ih =>
    intro cs ts mo cv iter c hcv
    rw [delayStep1]
    by_cases hg : 10 * SHORT_SLEEP_NS ≤ cs ∧ cv + ts + 10 * SHORT_SLEEP_NS < target
    · rw [if_pos hg]
      dsimp only
      by_cases hret : target ≤ (sysDelayNS env cs c).time
      · rw [if_pos hret]
        exact hret
      · rw [if_neg hret]
        by_cases hz : target < (sysDelayNS env cs c).time + ts + 10 * SHORT_SLEEP_NS
        · rw [if_pos hz]
          by_cases hts1 : zenoShrink ((target - (sysDelayNS env cs c).time) / 10)
              (sysDelayNS env cs c).time target
              ((target - (sysDelayNS env cs c).time) / 10) ≤ SHORT_SLEEP_NS
          · rw [if_pos hts1]
            exact Nat.le_refl _
          · rw [if_neg hts1]
            exact ih _ _ _ _ _ _ (Nat.le_refl _)
        · rw [if_neg hz]
          exact ih _ _ _ _ _ _ (Nat.le_refl _)
    · rw [if_neg hg]
      exact hcv

/-! ## C1: `SDL_DelayPrecise` sleeps at least the requested duration -/

/-- C1: whenever `SDL_DelayPrecise` returns (within fuel), the clock has
advanced by at least `ns` past the entry sample — given a platform whose
sleeps last at least the requested duration (the embedding's clock is
monotone by construction). -/
theorem SDL_DelayPrecise_elapsed (fuel ns : Nat) (env : DEnv) (c0 c' : Clock)
    (evs : List DelayEv) (_hsleep : ∀ i r, r ≤ env.sleepEl i r)
    (h : SDL_DelayPrecise fuel ns env c0 = (some c', evs)) :
    c0.time + ns ≤ c'.time := by
  unfold SDL_DelayPrecise at h
  by_cases h2 : ns ≤ 2 * SHORT_SLEEP_NS
  · rw [if_pos h2] at h
    exact delayStep4_some _ env fuel _ c0 c' evs h (Nat.le_refl _)
  · rw [if_neg h2] at h
    dsimp only at h
    by_cases h10 : 10 * SHORT_SLEEP_NS ≤ ns / 10
    · rw [if_pos h10] at h
      have hok := delayStep1_ok (c0.time + ns) env fuel (ns / 10 - SHORT_SLEEP_NS) (ns / 10) 0
          c0.time 0 c0 (Nat.le_refl _)
      rcases hstep : delayStep1 fuel (ns / 10 - SHORT_SLEEP_NS) (ns / 10) 0 c0.time
          (c0.time + ns) env c0 0 with ⟨res, evs1⟩
      rw [hstep] at h hok
      cases res with
      | done c1 =>
        dsimp only at h
        injection h with h1 h2'
        injection h1 with h1
        subst h1
        exact hok
      | out =>
        dsimp only at h
        simp at h
      | fall mo cv c1 =>
        dsimp only at h
        rcases hrec : delayStep2 fuel mo cv (c0.time + ns) env c1 with ⟨res2, evs2⟩
        rw [hrec] at h
        injection h with h1 h2'
        subst h1
        exact delayStep2_some fuel mo cv _ env c1 c' evs2 (by rw [hrec]) hok
    · rw [if_neg h10] at h
      exact delayStep2_some fuel 0 c0.time _ env c0 c' evs h (Nat.le_refl _)

/-- C1 witness: a zero-nanosecond request on the exact-sleep environment. -/
theorem SDL_DelayPrecise_elapsed_witness :
    (∀ i r, r ≤ exactEnv.sleepEl i r) ∧
    SDL_DelayPrecise 1 0 exactEnv ⟨0, 0⟩ = (some ⟨0, 0⟩, []) ∧
    (Clock.mk 0 0).time + 0 ≤ (Clock.mk 0 0).time :=
  ⟨fun _ r => Nat.le_refl r, by decide,
   SDL_DelayPrecise_elapsed 1 0 exactEnv ⟨0, 0⟩ ⟨0, 0⟩ []
     (fun _ r => Nat.le_refl r) (by decide)⟩

/-! ## C10: `SDL_DelayPrecise 0` makes no system call at all -/

/-- C10: a zero-nanosecond precise delay jumps to step 4, whose guard (and
step 5's) is immediately false, so the function returns at once with an empty
system-call trace — no `SDL_SYS_DelayNS` (not even with 0) and no CPU pause —
and the clock untouched. -/
theorem SDL_DelayPrecise_zero (fuel : Nat) (env : DEnv) (c0 : Clock) :
    SDL_DelayPrecise fuel 0 env c0 = (some c0, []) := by
  unfold SDL_DelayPrecise
  rw [if_pos (by omega : (0 : Nat) ≤ 2 * SHORT_SLEEP_NS)]
  rw [delayStep4.eq_def]
  dsimp only
  rw [if_neg (by omega : ¬ c0.time + SHORT_SLEEP_NS < c0.time + 0)]
  rw [delayStep5.eq_def]
  dsimp only
  rw [if_neg (by omega : ¬ c0.time < c0.time + 0)]

/-- Step 5 records no step-1 sleep events. -/
theorem delayStep5_no_sleep1 (target : Nat) (env : DEnv) :
    ∀ (fuel cv : Nat) (c : Clock) (i r ts mo cvx : Nat),
      DelayEv.sleep1 i r ts mo cvx ∉ (delayStep5 fuel cv target env c).2 := by
  intro fuel
  induction fuel with
  | zero =>
    intro cv c i r ts mo cvx
    rw [delayStep5]
    by_cases hg : cv < target
    · rw [if_pos hg]
      simp
    · rw [if_neg hg]
      simp
  | succ n ih =>
    intro cv c i r ts mo cvx
    rw [delayStep5]
    by_cases hg : cv < target
    · rw [if_pos hg]
      dsimp only
      intro hmem
      rcases List.mem_cons.1 hmem with heq | hmem
      · exact DelayEv.noConfusion heq
      · exact ih _ _ i r ts mo cvx hmem
    · rw [if_neg hg]
      simp

/-- Step 4 records no step-1 sleep events. -/
theorem delayStep4_no_sleep1 (target : Nat) (env : DEnv) :
    ∀ (fuel cv : Nat) (c : Clock) (i r ts mo cvx : Nat),
      DelayEv.sleep1 i r ts mo cvx ∉ (delayStep4 fuel cv target env c).2 := by
  intro fuel
  induction fuel with
  | zero =>
    intro cv c i r ts mo cvx
    rw [delayStep4]
    by_cases hg : cv + SHORT_SLEEP_NS < target
    · rw [if_pos hg]
      simp
    · rw [if_neg hg]
      exact delayStep5_no_sleep1 target env 0 cv c i r ts mo cvx
  | succ n ih =>
    intro cv c i r ts mo cvx
    rw [delayStep4]
    by_cases hg : cv + SHORT_SLEEP_NS < target
    · rw [if_pos hg]
      dsimp only
      intro hmem
      rcases List.mem_cons.1 hmem with heq | hmem
      · exact DelayEv.noConfusion heq
      · exact ih _ _ i r ts mo cvx hmem
    · rw [if_neg hg]
      exact delayStep5_no_sleep1 target env (n + 1) cv c i r ts mo cvx

/-- Step 3 records no step-1 sleep events. -/
theorem delayStep3_no_sleep1 (target : Nat) (env : DEnv) :
    ∀ (fuel cv : Nat) (c : Clock) (i r ts mo cvx : Nat),
      DelayEv.sleep1 i r ts mo cvx ∉ (delayStep3 fuel cv target env c).2 := by
  intro fuel
  induction fuel with
  | zero =>
    intro cv c i r ts mo cvx
    rw [delayStep3]
    by_cases hg : cv + 2 * SHORT_SLEEP_NS < target
    · rw [if_pos hg]
      simp
    · rw [if_neg hg]
      exact delayStep4_no_sleep1 target env 0 cv c i r ts mo cvx
  | succ n ih =>
    intro cv c i r ts mo cvx
    rw [delayStep3]
    by_cases hg : cv + 2 * SHORT_SLEEP_NS < target
    · rw [if_pos hg]
      dsimp only
      by_cases hret : target ≤ (sysDelayNS env SHORT_SLEEP_NS c).time
      · rw [if_pos hret]
        simp
      · rw [if_neg hret]
        intro hmem
        rcases List.mem_cons.1 hmem with heq | hmem
        · exact DelayEv.noConfusion heq
        · exact ih _ _ i r ts mo cvx hmem
    · rw [if_neg hg]
      exact delayStep4_no_sleep1 target env (n + 1) cv c i r ts mo cvx

/-- The step 2 loop records no step-1 sleep events. -/
theorem delayStep2Loop_no_sleep1 (target : Nat) (env : DEnv) :
    ∀ (fuel max_sleep cv : Nat) (c : Clock) (i r ts mo cvx : Nat),
      DelayEv.sleep1 i r ts mo cvx ∉ (delayStep2Loop fuel max_sleep cv target env c).2 := by
  intro fuel
  induction fuel with
  | zero =>
    intro ms cv c i r ts mo cvx
    rw [delayStep2Loop]
    by_cases hg : cv + ms < target
    · rw [if_pos hg]
      simp
    · rw [if_neg hg]
      exact delayStep3_no_sleep1 target env 0 cv c i r ts mo cvx
  | succ n ih =>
    intro ms cv c i r ts mo cvx
    rw [delayStep2Loop]
    by_cases hg : cv + ms < target
    · rw [if_pos hg]
      dsimp only
      by_cases hret : target ≤ (sysDelayNS env SHORT_SLEEP_NS c).time
      · rw [if_pos hret]
        simp
      · rw [if_neg hret]
        intro hmem
        rcases List.mem_cons.1 hmem with heq | hmem
        · exact DelayEv.noConfusion heq
        · exact ih _ _ _ i r ts mo cvx hmem
    · rw [if_neg hg]
      exact delayStep3_no_sleep1 target env (n + 1) cv c i r ts mo cvx

/-- Step 2 records no step-1 sleep events. -/
theorem delayStep2_no_sleep1 (fuel mo' cv target : Nat) (env : DEnv) (c : Clock)
    (i r ts mo cvx : Nat) :
    DelayEv.sleep1 i r ts mo cvx ∉ (delayStep2 fuel mo' cv target env c).2 := by
  unfold delayStep2
  exact delayStep2Loop_no_sleep1 target env fuel _ cv c i r ts mo cvx

/-- Every step-1 sleep event records a request that is `target_sleep - 1 ms`
on the first iteration and `target_sleep - max_overshoot` afterwards, and is
only emitted while the loop guard holds. -/
theorem delayStep1_events (target : Nat) (env : DEnv) :
    ∀ (fuel cs ts mo cv iter : Nat) (c : Clock),
      (iter = 0 → cs = ts - SHORT_SLEEP_NS) →
      (0 < iter → cs = ts - mo) →
      ∀ i req ts' mo' cv',
        DelayEv.sleep1 i req ts' mo' cv' ∈ (delayStep1 fuel cs ts mo cv target env c iter).2 →
        (i = 0 → req = ts' - SHORT_SLEEP_NS) ∧ (0 < i → req = ts' - mo') ∧
        10 * SHORT_SLEEP_NS ≤ req ∧ cv' + ts' + 10 * SHORT_SLEEP_NS < target := by
  intro fuel
  induction fuel with
  | zero =>
    intro cs ts mo cv iter c hinv0 hinvS i req ts' mo' cv' hmem
    rw [delayStep1] at hmem
    by_cases hg : 10 * SHORT_SLEEP_NS ≤ cs ∧ cv + ts + 10 * SHORT_SLEEP_NS < target
    · rw [if_pos hg] at hmem
      simp at hmem
    · rw [if_neg hg] at hmem
      simp at hmem
  | succ n ih =>
    intro cs ts mo cv iter c hinv0 hinvS i req ts' mo' cv' hmem
    rw [delayStep1] at hmem
    by_cases hg : 10 * SHORT_SLEEP_NS ≤ cs ∧ cv + ts + 10 * SHORT_SLEEP_NS < target
    case neg =>
      rw [if_neg hg] at hmem
      simp at hmem
    rw [if_pos hg] at hmem
    dsimp only at hmem
    have hhead : DelayEv.sleep1 iter cs ts mo cv = DelayEv.sleep1 i req ts' mo' cv' →
        (i = 0 → req = ts' - SHORT_SLEEP_NS) ∧ (0 < i → req = ts' - mo') ∧
        10 * SHORT_SLEEP_NS ≤ req ∧ cv' + ts' + 10 * SHORT_SLEEP_NS < target := by
      intro heq
      injection heq with e1 e2 e3 e4 e5
      subst e1
      subst e2
      subst e3
      subst e4
      subst e5
      exact ⟨hinv0, hinvS, hg.1, hg.2⟩
    by_cases hret : target ≤ (sysDelayNS env cs c).time
    · rw [if_pos hret] at hmem
      dsimp only at hmem
      exact hhead (List.mem_singleton.1 hmem).symm
    · rw [if_neg hret] at hmem
      by_cases hz : target < (sysDelayNS env cs c).time + ts + 10 * SHORT_SLEEP_NS
      · rw [if_pos hz] at hmem
        by_cases hts1 : zenoShrink ((target - (sysDelayNS env cs c).time) / 10)
            (sysDelayNS env cs c).time target
            ((target - (sysDelayNS env cs c).time) / 10) ≤ SHORT_SLEEP_NS
        · rw [if_pos hts1] at hmem
          dsimp only at hmem
          exact hhead (List.mem_singleton.1 hmem).symm
        · rw [if_neg hts1] at hmem
          dsimp only at hmem
          rcases List.mem_cons.1 hmem with heq | hmem
          · exact hhead heq.symm
          · exact ih _ _ _ _ _ _ (fun hc => absurd hc (by omega)) (fun _ => rfl)
              i req ts' mo' cv' hmem
      · rw [if_neg hz] at hmem
        dsimp only at hmem
        rcases List.mem_cons.1 hmem with heq | hmem
        · exact hhead heq.symm
        · exact ih _ _ _ _ _ _ (fun hc => absurd hc (by omega)) (fun _ => rfl)
            i req ts' mo' cv' hmem

/-! ## C8: the sleep requests issued by delay step 1 -/

/-- C8 counterexample: on a 200 ms request with exact-overshoot-one-second
sleeps, the first (and only) step-1 sleep requests `target_sleep - 1 ms`
(19 ms), not `target_sleep - max_overshoot` (20 ms) as the claim states. -/
theorem SDL_DelayPrecise_first_sleep_not_target :
    DelayEv.sleep1 0 19000000 20000000 0 0 ∈ (SDL_DelayPrecise 100 200000000 bigEnv ⟨0, 0⟩).2 ∧
    (19000000 : Nat) ≠ 20000000 - 0 := by
  constructor
  · decide
  · decide

/-- C8 amended: every sleep request issued by step 1 of `SDL_DelayPrecise`
equals `target_sleep - SHORT_SLEEP_NS` on the loop's first iteration and
`target_sleep - max_overshoot` (with the then-current values) on every later
iteration, and is issued only while `current_sleep ≥ 10 ms` and
`current + target_sleep + 10 ms < deadline`. -/
theorem SDL_DelayPrecise_step1_sleeps (fuel ns : Nat) (env : DEnv) (c0 : Clock)
    (i req ts mo cv : Nat)
    (hmem : DelayEv.sleep1 i req ts mo cv ∈ (SDL_DelayPrecise fuel ns env c0).2) :
    (i = 0 → req = ts - SHORT_SLEEP_NS) ∧ (0 < i → req = ts - mo) ∧
    10 * SHORT_SLEEP_NS ≤ req ∧ cv + ts + 10 * SHORT_SLEEP_NS < c0.time + ns := by
  unfold SDL_DelayPrecise at hmem
  by_cases h2 : ns ≤ 2 * SHORT_SLEEP_NS
  · rw [if_pos h2] at hmem
    exact absurd hmem (delayStep4_no_sleep1 _ env fuel _ c0 i req ts mo cv)
  · rw [if_neg h2] at hmem
    dsimp only at hmem
    by_cases h10 : 10 * SHORT_SLEEP_NS ≤ ns / 10
    · rw [if_pos h10] at hmem
      rcases hstep : delayStep1 fuel (ns / 10 - SHORT_SLEEP_NS) (ns / 10) 0 c0.time
          (c0.time + ns) env c0 0 with ⟨res, evs1⟩
      rw [hstep] at hmem
      have hev := delayStep1_events (c0.time + ns) env fuel (ns / 10 - SHORT_SLEEP_NS)
          (ns / 10) 0 c0.time 0 c0 (fun _ => rfl) (fun hc => absurd hc (by omega))
          i req ts mo cv
      rw [hstep] at hev
      cases res with
      | done c1 =>
        dsimp only at hmem
        exact hev hmem
      | out =>
        dsimp only at hmem
        exact hev hmem
      | fall mo1 cv1 c1 =>
        dsimp only at hmem
        rcases List.mem_append.1 hmem with hmem | hmem
        · exact hev hmem
        · exact absurd hmem (delayStep2_no_sleep1 fuel mo1 cv1 _ env c1 i req ts mo cv)
    · rw [if_neg h10] at hmem
      exact absurd hmem (delayStep2_no_sleep1 fuel 0 c0.time _ env c0 i req ts mo cv)

/-- C8 witness: the amended statement evaluated on the recorded first sleep of
a concrete 200 ms run. -/
theorem SDL_DelayPrecise_step1_sleeps_witness :
    DelayEv.sleep1 0 19000000 20000000 0 0 ∈ (SDL_DelayPrecise 100 200000000 bigEnv ⟨0, 0⟩).2 ∧
    (((0 : Nat) = 0 → (19000000 : Nat) = 20000000 - SHORT_SLEEP_NS) ∧
      ((0 : Nat) < 0 → (19000000 : Nat) = 20000000 - 0) ∧
      10 * SHORT_SLEEP_NS ≤ 19000000 ∧
      0 + 20000000 + 10 * SHORT_SLEEP_NS < (Clock.mk 0 0).time + 200000000) :=
  ⟨by decide,
   SDL_DelayPrecise_step1_sleeps 100 200000000 bigEnv ⟨0, 0⟩ 0 19000000 20000000 0 0
     (by decide)⟩
